import Mathlib

/-!
Shallow embedding of the resilient request executor of the Amazing Marvin
API client (source: `src/client.ts`, `src/errors.ts`).

Modelling conventions:
* JavaScript numbers carrying HTTP statuses, timestamps and delays are
  modelled as `Int`; the seconds value produced by `Number(...)` inside
  retry-hint parsing is modelled as `Rat` (it may be fractional).
* `this.retries` is validated non-negative at construction and is used as a
  loop bound, so it is modelled as `Nat` (the spec calls it a non-negative
  integer).
* A JavaScript `catch` receives an arbitrary value; the `Fault` type covers
  the three cases the code distinguishes: an already-built `MarvinError`,
  any other `Error` (carrying a message), and a non-`Error` value.
* The host functions `Number(...)` (returning `NaN` on failure, modelled as
  `none`) and `new Date(...).getTime()` are parameters, collected in
  `JsHost`; `Date.now()` is the explicit parameter `now`.
* Promise rejection / `throw` is modelled with `Except`; the `async` retry
  loop becomes a fuel-indexed recursion whose fuel counts the remaining
  iterations the `for` loop may still run.
-/

namespace Marvin

/-- `MarvinError` data (src/errors.ts lines 6-25): the uniform failure
record carrying status, endpoint, method, timestamp and optional retry
hint. -/
structure MarvinError where
  message : String
  status : Int
  statusText : String
  endpoint : String
  method : String
  timestamp : Int
  retryAfterMs : Option Int
deriving Repr, DecidableEq

/-- `isClientError` (src/errors.ts lines 30-32): `400 <= status < 500`. -/
def MarvinError.isClientError (e : MarvinError) : Bool :=
  400 ≤ e.status && e.status < 500

/-- `isServerError` (src/errors.ts lines 37-39): `status >= 500`. -/
def MarvinError.isServerError (e : MarvinError) : Bool :=
  500 ≤ e.status

/-- `isRetryable` (src/errors.ts lines 44-46): server error or `status == 0`. -/
def MarvinError.isRetryable (e : MarvinError) : Bool :=
  e.isServerError || e.status == 0

/-- A value caught by a JavaScript `catch` block, as the code classifies it:
an already-built `MarvinError`, any other `Error` instance (only its
`message` is read), or a non-`Error` value. -/
inductive Fault where
  | marvin (e : MarvinError)
  | jsError (message : String)
  | other
deriving Repr, DecidableEq

/-- The fields of a fetch `Response` that the executor reads: the `ok`
flag, `status`, `statusText` and the `retry-after` header (via
`response.headers?.get?.('retry-after') ?? null`). -/
structure Response where
  ok : Bool
  status : Int
  statusText : String
  retryAfter : Option String
deriving Repr, DecidableEq

/-- Host-environment string parsing used by `parseRetryAfter`:
`numParse s` models `Number(s)` (with `none` for `NaN`), and
`dateParseMs s` models `new Date(s).getTime()` (with `none` for `NaN`). -/
structure JsHost where
  numParse : String → Option Rat
  dateParseMs : String → Option Int

/-- `parseRetryAfter` (src/client.ts lines 138-145): `!value` is true in
JavaScript both for a missing header and for the empty string; a value
that `Number` accepts yields `max(0, floor(secs * 1000))`; otherwise a
parseable date yields `max(0, dateMs - Date.now())`; otherwise `null`. -/
def parseRetryAfter (host : JsHost) (now : Int) (value : Option String) : Option Int :=
  match value with
  | none => none
  | some s =>
    if s = "" then none
    else
      match host.numParse s with
      | some secs => some (max 0 ⌊secs * 1000⌋)
      | none =>
        match host.dateParseMs s with
        | some dateMs => some (max 0 (dateMs - now))
        | none => none

/-- The raw `MarvinClientConfig` handed to the constructor; every field the
constructor reads is optional there (`apiToken` may additionally be the
empty string, which JavaScript treats as falsy). -/
structure MarvinClientConfig where
  apiToken : Option String
  baseUrl : Option String
  timeout : Option Int
  retries : Option Int
  retryDelay : Option Int
deriving Repr, DecidableEq

/-- The validated client state (src/client.ts lines 92-98): the fields set
by a constructor run that did not throw. -/
structure MarvinClient where
  apiToken : String
  baseUrl : String
  timeout : Int
  retries : Nat
  retryDelay : Int
deriving Repr, DecidableEq

def defaultBaseUrl : String := "https://serv.amazingmarvin.com/api"

/-- JavaScript `String.prototype.trim()` as used by the constructor's token
guard: strip leading and trailing whitespace. (Modelled executably over the
character list so that concrete witnesses evaluate.) -/
def jsTrim (s : String) : String :=
  ⟨((s.data.dropWhile Char.isWhitespace).reverse.dropWhile Char.isWhitespace).reverse⟩

/-- The `MarvinClient` constructor (src/client.ts lines 100-123). The token
guard `!config.apiToken || config.apiToken.trim() === ''` runs first;
defaults are then filled in (`baseUrl ||` treats the empty string as
absent, the `??` defaults do not), and the three numeric validations run
in source order. A `throw new Error(msg)` is modelled as `.error msg`. -/
def MarvinClient.construct (config : MarvinClientConfig) : Except String MarvinClient :=
  match config.apiToken with
  | none => .error "API token is required and cannot be empty"
  | some token =>
    if token = "" ∨ jsTrim token = "" then
      .error "API token is required and cannot be empty"
    else
      let baseUrl := match config.baseUrl with
        | none => defaultBaseUrl
        | some u => if u = "" then defaultBaseUrl else u
      let timeout := config.timeout.getD 10000
      let retriesRaw := config.retries.getD 3
      let retryDelay := config.retryDelay.getD 1000
      if timeout ≤ 0 then .error "Timeout must be greater than 0"
      else if retriesRaw < 0 then .error "Retries must be 0 or greater"
      else if retryDelay ≤ 0 then .error "Retry delay must be greater than 0"
      else .ok { apiToken := token, baseUrl := baseUrl, timeout := timeout,
                 retries := retriesRaw.toNat, retryDelay := retryDelay }

/-- The subset of `RequestInit` the executor reads: `method`, `body` and
`headers`. A header object is modelled as an association list in which a
later entry overrides an earlier one with the same key (object spread). -/
structure RequestOptions where
  method : Option String
  body : Option String
  headers : List (String × String)
deriving Repr, DecidableEq

/-- `options.method || 'GET'`: the empty string is falsy in JavaScript. -/
def effectiveMethod (options : RequestOptions) : String :=
  match options.method with
  | none => "GET"
  | some m => if m = "" then "GET" else m

/-- The request actually handed to the transport (`fetch(url, {...})` in
src/client.ts lines 318-322). -/
structure BuiltRequest where
  url : String
  method : String
  headers : List (String × String)
  body : Option String
deriving Repr, DecidableEq

/-- Header construction (src/client.ts lines 305-310): defaults, then
`additionalHeaders`, then `options.headers`; later entries win. -/
def buildHeaders (client : MarvinClient) (additionalHeaders : List (String × String))
    (optionHeaders : List (String × String)) : List (String × String) :=
  [("Content-Type", "application/json"), ("X-API-Token", client.apiToken)]
    ++ additionalHeaders ++ optionHeaders

/-- URL and request assembly of `makeRequestCore` (src/client.ts lines
302-310 and 318-322). -/
def buildRequest (client : MarvinClient) (endpoint : String) (options : RequestOptions)
    (additionalHeaders : List (String × String)) : BuiltRequest :=
  { url := client.baseUrl ++ endpoint,
    method := effectiveMethod options,
    headers := buildHeaders client additionalHeaders options.headers,
    body := options.body }

/-- What one transport invocation does: resolve with a `Response` or reject
with some fault. -/
inductive TransportResult where
  | resp (r : Response)
  | fail (f : Fault)
deriving Repr, DecidableEq

/-- The status-0 failure wrapped around a caught `Error` (src/client.ts
lines 260-267 and 328-335): the fault's own message, `statusText`
"Network Error". -/
def networkFailure (endpoint method : String) (now : Int) (msg : String) : MarvinError :=
  { message := msg, status := 0, statusText := "Network Error",
    endpoint := endpoint, method := method, timestamp := now, retryAfterMs := none }

/-- The status-0 failure wrapped around a caught non-`Error` value
(src/client.ts lines 269-276 and 337-344). -/
def unknownFailure (endpoint method : String) (now : Int) : MarvinError :=
  { message := "Unknown error", status := 0, statusText := "Unknown Error",
    endpoint := endpoint, method := method, timestamp := now, retryAfterMs := none }

/-- The failure built from a non-ok response (src/client.ts lines 350-364):
message `HTTP <status>: <statusText>`, the response's status and reason
phrase verbatim, and the parsed retry hint when one was present. -/
def httpFailure (host : JsHost) (endpoint method : String) (now : Int) (r : Response) :
    MarvinError :=
  { message := "HTTP " ++ toString r.status ++ ": " ++ r.statusText,
    status := r.status, statusText := r.statusText,
    endpoint := endpoint, method := method, timestamp := now,
    retryAfterMs := parseRetryAfter host now r.retryAfter }

/-- `makeRequestCore` (src/client.ts lines 296-367): build the request,
invoke the transport; a rejection is rethrown as-is when it already is a
`MarvinError` and wrapped as a status-0 failure otherwise; a non-ok
response throws an HTTP failure carrying the parsed retry hint; an ok
response is handed to the parser, whose own fault (if any) propagates
unwrapped. -/
def makeRequestCore {α : Type} (host : JsHost) (client : MarvinClient) (endpoint : String)
    (options : RequestOptions) (additionalHeaders : List (String × String))
    (transport : BuiltRequest → TransportResult)
    (parser : Response → Except Fault α) (now : Int) : Except Fault α :=
  let method := effectiveMethod options
  match transport (buildRequest client endpoint options additionalHeaders) with
  | .fail f =>
    match f with
    | .marvin e => .error (.marvin e)
    | .jsError msg => .error (.marvin (networkFailure endpoint method now msg))
    | .other => .error (.marvin (unknownFailure endpoint method now))
  | .resp r =>
    if !r.ok then
      .error (.marvin (httpFailure host endpoint method now r))
    else
      parser r

/-- `toMarvinError` (src/client.ts lines 257-277). -/
def toMarvinError (f : Fault) (endpoint method : String) (now : Int) : MarvinError :=
  match f with
  | .marvin e => e
  | .jsError msg => networkFailure endpoint method now msg
  | .other => unknownFailure endpoint method now

/-- `isNonRetryableClientError` (src/client.ts lines 279-281). -/
def isNonRetryableClientError (e : MarvinError) : Bool :=
  e.isClientError && e.status != 429

/-- `shouldRetry` (src/client.ts lines 283-285). -/
def shouldRetry (e : MarvinError) : Bool :=
  e.isRetryable || e.status == 429

/-- The delay `waitBeforeRetry` sleeps for (src/client.ts lines 287-291):
the failure's `retryAfterMs` verbatim when it is a number, otherwise
`retryDelay * 2 ^ attempt`. -/
def waitBeforeRetry (client : MarvinClient) (attempt : Nat) (e : MarvinError) : Int :=
  match e.retryAfterMs with
  | some serverDelay => serverDelay
  | none => client.retryDelay * 2 ^ attempt

/-- Observable outcome of one full `requestWithRetries` call: the value or
final error, the number of transport invocations, the sequence of
inter-attempt delays, and whether the post-loop defensive fallback (src/
client.ts lines 246-254) produced the final error. -/
structure RunResult (α : Type) where
  outcome : Except MarvinError α
  calls : Nat
  delays : List Int
  usedFallback : Bool
deriving Repr

/-- The attempt loop of `requestWithRetries` (src/client.ts lines 229-254).
`fuel` counts the iterations the `for` loop may still run (the loop guard
`attempt <= retries` holds exactly while `fuel > 0` since
`fuel = retries + 1 - attempt` along every run); exhausted fuel is the
loop exiting, after which the code throws `lastError ?? synthetic`. -/
def requestLoop {α : Type} (host : JsHost) (client : MarvinClient) (endpoint : String)
    (options : RequestOptions) (additionalHeaders : List (String × String))
    (transport : Nat → BuiltRequest → TransportResult)
    (parser : Response → Except Fault α) (now : Int) :
    Nat → Nat → Option MarvinError → RunResult α
  | 0, _, lastError =>
    { outcome := .error (match lastError with
        | some e => e
        | none =>
          { message := "Request failed after all retries", status := 0,
            statusText := "Retry Exhausted", endpoint := endpoint,
            method := effectiveMethod options, timestamp := now, retryAfterMs := none }),
      calls := 0, delays := [], usedFallback := true }
  | fuel + 1, attempt, _lastError =>
    match makeRequestCore host client endpoint options additionalHeaders
        (transport attempt) parser now with
    | .ok v => { outcome := .ok v, calls := 1, delays := [], usedFallback := false }
    | .error f =>
      let e := toMarvinError f endpoint (effectiveMethod options) now
      if isNonRetryableClientError e || attempt == client.retries || !shouldRetry e then
        { outcome := .error e, calls := 1, delays := [], usedFallback := false }
      else
        let rest := requestLoop host client endpoint options additionalHeaders
          transport parser now fuel (attempt + 1) (some e)
        { outcome := rest.outcome, calls := rest.calls + 1,
          delays := waitBeforeRetry client attempt e :: rest.delays,
          usedFallback := rest.usedFallback }

/-- `requestWithRetries` (src/client.ts lines 223-255): run the attempt
loop from attempt 0 with `lastError = null`. The transport is indexed by
the attempt number so a test double may script a different result per
attempt. -/
def requestWithRetries {α : Type} (host : JsHost) (client : MarvinClient) (endpoint : String)
    (options : RequestOptions) (additionalHeaders : List (String × String))
    (transport : Nat → BuiltRequest → TransportResult)
    (parser : Response → Except Fault α) (now : Int) : RunResult α :=
  requestLoop host client endpoint options additionalHeaders transport parser now
    (client.retries + 1) 0 none

/-- The candidate failure of attempt `a`, when that attempt fails: what
`toMarvinError` makes of the fault `makeRequestCore` threw there. -/
def candidateAt {α : Type} (host : JsHost) (client : MarvinClient) (endpoint : String)
    (options : RequestOptions) (additionalHeaders : List (String × String))
    (transport : Nat → BuiltRequest → TransportResult)
    (parser : Response → Except Fault α) (now : Int) (a : Nat) : Option MarvinError :=
  match makeRequestCore host client endpoint options additionalHeaders
      (transport a) parser now with
  | .ok _ => none
  | .error f => some (toMarvinError f endpoint (effectiveMethod options) now)

/-- A JavaScript value as passed for the optional `body` parameter of
`post` (src/client.ts lines 185-199); `undef` models the argument being
omitted. -/
inductive JSValue where
  | undef
  | null
  | bool (b : Bool)
  | num (n : Int)
  | str (s : String)
  | arr (elems : List JSValue)
  | obj (fields : List (String × JSValue))
deriving Repr

/-- JavaScript truthiness of a `JSValue` (`if (body)`): `undefined`,
`null`, `false`, `0` and the empty string are falsy; objects and arrays
are always truthy. -/
def truthy : JSValue → Bool
  | .undef => false
  | .null => false
  | .bool b => b
  | .num n => n != 0
  | .str s => s != ""
  | .arr _ => true
  | .obj _ => true

mutual

/-- `JSON.stringify` on the modelled values (string escaping elided). -/
def jsonStringify : JSValue → String
  | .undef => "null"
  | .null => "null"
  | .bool true => "true"
  | .bool false => "false"
  | .num n => toString n
  | .str s => "\"" ++ s ++ "\""
  | .arr elems => "[" ++ String.intercalate "," (jsonStringifyList elems) ++ "]"
  | .obj fields => "\x7b" ++ String.intercalate "," (jsonStringifyFields fields) ++ "\x7d"

def jsonStringifyList : List JSValue → List String
  | [] => []
  | v :: vs => jsonStringify v :: jsonStringifyList vs

def jsonStringifyFields : List (String × JSValue) → List String
  | [] => []
  | (k, v) :: vs => ("\"" ++ k ++ "\":" ++ jsonStringify v) :: jsonStringifyFields vs

end

/-- `post` (src/client.ts lines 185-199): build `{ method: 'POST' }` and
attach `JSON.stringify(body)` only when `body` is truthy; the options are
then handed to the generic request path. -/
def post (body : JSValue) : RequestOptions :=
  let options : RequestOptions := { method := some "POST", body := none, headers := [] }
  if truthy body then { options with body := some (jsonStringify body) } else options

/-- The invariant the amended data-model claim establishes for every
failure the executor itself constructs: non-negative status whenever the
transport's response statuses are non-negative, a non-negative retry hint,
and an empty `statusText` only when it was copied verbatim from a non-ok
response whose reason phrase was empty. -/
def SoundFailure (client : MarvinClient) (endpoint : String) (options : RequestOptions)
    (ah : List (String × String)) (transport : Nat → BuiltRequest → TransportResult)
    (e : MarvinError) : Prop :=
  0 ≤ e.status ∧
  (∀ d, e.retryAfterMs = some d → 0 ≤ d) ∧
  (e.statusText = "" →
    ∃ a r, transport a (buildRequest client endpoint options ah) = .resp r ∧
      r.ok = false ∧ r.statusText = "" ∧ e.status = r.status)

/-! Concrete fixtures used by witnesses and counterexamples (the analogue
of the scripted fake transports in the repository's test-suite). -/

def sampleHost : JsHost :=
  { numParse := fun s => if s = "2" then some 2 else none,
    dateParseMs := fun _ => none }

def sampleClient : MarvinClient :=
  { apiToken := "token", baseUrl := defaultBaseUrl, timeout := 10000,
    retries := 3, retryDelay := 100 }

def oneRetryClient : MarvinClient :=
  { apiToken := "token", baseUrl := defaultBaseUrl, timeout := 10000,
    retries := 1, retryDelay := 100 }

def getOptions : RequestOptions := { method := some "GET", body := none, headers := [] }

def okResponse : Response := { ok := true, status := 200, statusText := "OK", retryAfter := none }

def zeroRetryClient : MarvinClient :=
  { apiToken := "token", baseUrl := defaultBaseUrl, timeout := 10000,
    retries := 0, retryDelay := 100 }

def resp304 : Response := { ok := false, status := 304, statusText := "Not Modified", retryAfter := none }

def resp404 : Response := { ok := false, status := 404, statusText := "Not Found", retryAfter := none }

def resp500 : Response :=
  { ok := false, status := 500, statusText := "Internal Server Error", retryAfter := none }

def resp429hint : Response :=
  { ok := false, status := 429, statusText := "Too Many Requests", retryAfter := some "2" }

def emptyReason500 : Response := { ok := false, status := 500, statusText := "", retryAfter := none }

def okParse : Response → Except Fault Unit := fun _ => .ok ()

def failParse : Response → Except Fault Unit := fun _ => .error (.jsError "unexpected end of input")

def constTransport (r : Response) : Nat → BuiltRequest → TransportResult := fun _ _ => .resp r

def hintThenOkTransport : Nat → BuiltRequest → TransportResult :=
  fun a _ => if a = 0 then .resp resp429hint else .resp okResponse

end Marvin

namespace Marvin

section Executor

variable {α : Type} (host : JsHost) (client : MarvinClient) (endpoint : String)
  (options : RequestOptions) (ah : List (String × String))
  (transport : Nat → BuiltRequest → TransportResult)
  (parser : Response → Except Fault α) (now : Int)

lemma parseRetryAfter_nonneg (value : Option String) (d : Int)
    (h : parseRetryAfter host now value = some d) : 0 ≤ d := by
  cases value with
  | none => exact absurd h (by simp [parseRetryAfter])
  | some s =>
    simp only [parseRetryAfter] at h
    by_cases hs : s = ""
    · simp [hs] at h
    · rw [if_neg hs] at h
      cases hn : host.numParse s with
      | some secs =>
        rw [hn] at h
        have : d = max 0 ⌊secs * 1000⌋ := by exact (Option.some_inj.mp h).symm
        rw [this]
        exact le_max_left 0 _
      | none =>
        rw [hn] at h
        cases hd : host.dateParseMs s with
        | some dateMs =>
          rw [hd] at h
          have : d = max 0 (dateMs - now) := by exact (Option.some_inj.mp h).symm
          rw [this]
          exact le_max_left 0 _
        | none => rw [hd] at h; exact absurd h (by simp)

lemma requestLoop_succ_ok (fuel attempt : Nat) (lastError : Option MarvinError) (v : α)
    (hcore : makeRequestCore host client endpoint options ah (transport attempt) parser now
      = .ok v) :
    requestLoop host client endpoint options ah transport parser now (fuel + 1) attempt lastError
      = { outcome := .ok v, calls := 1, delays := [], usedFallback := false } := by
  simp only [requestLoop, hcore]

lemma requestLoop_succ_stop (fuel attempt : Nat) (lastError : Option MarvinError) (f : Fault)
    (hcore : makeRequestCore host client endpoint options ah (transport attempt) parser now
      = .error f)
    (hstop : (isNonRetryableClientError (toMarvinError f endpoint (effectiveMethod options) now)
      || attempt == client.retries
      || !shouldRetry (toMarvinError f endpoint (effectiveMethod options) now)) = true) :
    requestLoop host client endpoint options ah transport parser now (fuel + 1) attempt lastError
      = { outcome := .error (toMarvinError f endpoint (effectiveMethod options) now),
          calls := 1, delays := [], usedFallback := false } := by
  simp only [requestLoop, hcore, hstop, if_true]

lemma requestLoop_succ_continue (fuel attempt : Nat) (lastError : Option MarvinError) (f : Fault)
    (hcore : makeRequestCore host client endpoint options ah (transport attempt) parser now
      = .error f)
    (hstop : (isNonRetryableClientError (toMarvinError f endpoint (effectiveMethod options) now)
      || attempt == client.retries
      || !shouldRetry (toMarvinError f endpoint (effectiveMethod options) now)) = false) :
    requestLoop host client endpoint options ah transport parser now (fuel + 1) attempt lastError
      = { outcome := (requestLoop host client endpoint options ah transport parser now fuel
              (attempt + 1)
              (some (toMarvinError f endpoint (effectiveMethod options) now))).outcome,
          calls := (requestLoop host client endpoint options ah transport parser now fuel
              (attempt + 1)
              (some (toMarvinError f endpoint (effectiveMethod options) now))).calls + 1,
          delays := waitBeforeRetry client attempt
              (toMarvinError f endpoint (effectiveMethod options) now)
            :: (requestLoop host client endpoint options ah transport parser now fuel
              (attempt + 1)
              (some (toMarvinError f endpoint (effectiveMethod options) now))).delays,
          usedFallback := (requestLoop host client endpoint options ah transport parser now fuel
              (attempt + 1)
              (some (toMarvinError f endpoint (effectiveMethod options) now))).usedFallback } := by
  simp only [requestLoop, hcore, hstop, if_false, Bool.false_eq_true]

lemma requestLoop_exhaust :
    ∀ (fuel attempt : Nat) (lastError : Option MarvinError),
      attempt + fuel = client.retries →
      (∀ j, attempt ≤ j → j ≤ client.retries →
        ∃ e, candidateAt host client endpoint options ah transport parser now j = some e ∧
          shouldRetry e = true ∧ isNonRetryableClientError e = false) →
      ∃ e, candidateAt host client endpoint options ah transport parser now client.retries
          = some e ∧
        (requestLoop host client endpoint options ah transport parser now (fuel + 1) attempt
          lastError).calls = fuel + 1 ∧
        (requestLoop host client endpoint options ah transport parser now (fuel + 1) attempt
          lastError).outcome = .error e := by
  intro fuel
  induction fuel with
  | zero =>
    intro attempt lastError hsum hall
    have hatt : attempt = client.retries := by omega
    obtain ⟨e, hc, hr, hnc⟩ := hall attempt le_rfl (by omega)
    simp only [candidateAt] at hc
    cases hcore : makeRequestCore host client endpoint options ah (transport attempt)
        parser now with
    | ok v => rw [hcore] at hc; exact absurd hc (by simp)
    | error f =>
      rw [hcore] at hc
      simp only [Option.some_inj] at hc
      have hstop : (isNonRetryableClientError
            (toMarvinError f endpoint (effectiveMethod options) now)
          || attempt == client.retries
          || !shouldRetry (toMarvinError f endpoint (effectiveMethod options) now)) = true := by
        simp [hatt]
      have hres := requestLoop_succ_stop host client endpoint options ah transport parser now
        0 attempt lastError f hcore hstop
      refine ⟨e, ?_, ?_, ?_⟩
      · rw [← hatt]; simp only [candidateAt]; rw [hcore]; simp [hc]
      · rw [hres]
      · rw [hres, hc]
  | succ fuel ih =>
    intro attempt lastError hsum hall
    have hlt : attempt < client.retries := by omega
    obtain ⟨e, hc, hr, hnc⟩ := hall attempt le_rfl (by omega)
    simp only [candidateAt] at hc
    cases hcore : makeRequestCore host client endpoint options ah (transport attempt)
        parser now with
    | ok v => rw [hcore] at hc; exact absurd hc (by simp)
    | error f =>
      rw [hcore] at hc
      simp only [Option.some_inj] at hc
      have hstop : (isNonRetryableClientError
            (toMarvinError f endpoint (effectiveMethod options) now)
          || attempt == client.retries
          || !shouldRetry (toMarvinError f endpoint (effectiveMethod options) now)) = false := by
        rw [hc]
        simp [hnc, hr]
        omega
      have hres := requestLoop_succ_continue host client endpoint options ah transport parser
        now (fuel + 1) attempt lastError f hcore hstop
      obtain ⟨e', hc', hcalls', hout'⟩ := ih (attempt + 1)
        (some (toMarvinError f endpoint (effectiveMethod options) now)) (by omega)
        (fun j hj hj2 => hall j (by omega) hj2)
      refine ⟨e', hc', ?_, ?_⟩
      · rw [hres]; simp only []; rw [hcalls']
      · rw [hres]; exact hout'

lemma requestLoop_delays :
    ∀ (fuel attempt : Nat) (lastError : Option MarvinError) (i : Nat),
      i < (requestLoop host client endpoint options ah transport parser now fuel attempt
        lastError).delays.length →
      ∃ e, candidateAt host client endpoint options ah transport parser now (attempt + i)
          = some e ∧
        (requestLoop host client endpoint options ah transport parser now fuel attempt
          lastError).delays[i]? = some (waitBeforeRetry client (attempt + i) e) := by
  intro fuel
  induction fuel with
  | zero =>
    intro attempt lastError i h
    simp [requestLoop] at h
  | succ fuel ih =>
    intro attempt lastError i h
    cases hcore : makeRequestCore host client endpoint options ah (transport attempt)
        parser now with
    | ok v =>
      rw [requestLoop_succ_ok host client endpoint options ah transport parser now
        fuel attempt lastError v hcore] at h
      simp at h
    | error f =>
      cases hstop : (isNonRetryableClientError
            (toMarvinError f endpoint (effectiveMethod options) now)
          || attempt == client.retries
          || !shouldRetry (toMarvinError f endpoint (effectiveMethod options) now)) with
      | true =>
        rw [requestLoop_succ_stop host client endpoint options ah transport parser now
          fuel attempt lastError f hcore hstop] at h
        simp at h
      | false =>
        have hres := requestLoop_succ_continue host client endpoint options ah transport
          parser now fuel attempt lastError f hcore hstop
        rw [hres] at h
        rw [hres]
        cases i with
        | zero =>
          refine ⟨toMarvinError f endpoint (effectiveMethod options) now, ?_, ?_⟩
          · simp only [Nat.add_zero, candidateAt]; rw [hcore]
          · simp
        | succ i =>
          simp only [List.length_cons, Nat.succ_lt_succ_iff] at h
          obtain ⟨e, hce, hget⟩ := ih (attempt + 1)
            (some (toMarvinError f endpoint (effectiveMethod options) now)) i h
          have harith : attempt + (i + 1) = attempt + 1 + i := by omega
          refine ⟨e, ?_, ?_⟩
          · rw [harith]; exact hce
          · simp only [List.getElem?_cons_succ]
            rw [harith]; exact hget

lemma requestLoop_no_fallback :
    ∀ (fuel attempt : Nat) (lastError : Option MarvinError),
      attempt + fuel = client.retries →
      (requestLoop host client endpoint options ah transport parser now (fuel + 1) attempt
        lastError).usedFallback = false := by
  intro fuel
  induction fuel with
  | zero =>
    intro attempt lastError hsum
    have hatt : attempt = client.retries := by omega
    cases hcore : makeRequestCore host client endpoint options ah (transport attempt)
        parser now with
    | ok v =>
      rw [requestLoop_succ_ok host client endpoint options ah transport parser now
        0 attempt lastError v hcore]
    | error f =>
      have hstop : (isNonRetryableClientError
            (toMarvinError f endpoint (effectiveMethod options) now)
          || attempt == client.retries
          || !shouldRetry (toMarvinError f endpoint (effectiveMethod options) now)) = true := by
        simp [hatt]
      rw [requestLoop_succ_stop host client endpoint options ah transport parser now
        0 attempt lastError f hcore hstop]
  | succ fuel ih =>
    intro attempt lastError hsum
    cases hcore : makeRequestCore host client endpoint options ah (transport attempt)
        parser now with
    | ok v =>
      rw [requestLoop_succ_ok host client endpoint options ah transport parser now
        (fuel + 1) attempt lastError v hcore]
    | error f =>
      cases hstop : (isNonRetryableClientError
            (toMarvinError f endpoint (effectiveMethod options) now)
          || attempt == client.retries
          || !shouldRetry (toMarvinError f endpoint (effectiveMethod options) now)) with
      | true =>
        rw [requestLoop_succ_stop host client endpoint options ah transport parser now
          (fuel + 1) attempt lastError f hcore hstop]
      | false =>
        rw [requestLoop_succ_continue host client endpoint options ah transport parser now
          (fuel + 1) attempt lastError f hcore hstop]
        exact ih (attempt + 1)
          (some (toMarvinError f endpoint (effectiveMethod options) now)) (by omega)

lemma candidate_sound
    (hT : ∀ a r, transport a (buildRequest client endpoint options ah) = .resp r →
      0 ≤ r.status)
    (hM : ∀ a e, transport a (buildRequest client endpoint options ah) ≠ .fail (.marvin e))
    (hP : ∀ r e, parser r ≠ .error (.marvin e)) :
    ∀ a f, makeRequestCore host client endpoint options ah (transport a) parser now
        = .error f →
      SoundFailure client endpoint options ah transport
        (toMarvinError f endpoint (effectiveMethod options) now) := by
  intro a f hcore
  simp only [makeRequestCore] at hcore
  cases htr : transport a (buildRequest client endpoint options ah) with
  | fail fa =>
    cases fa with
    | marvin e => exact absurd htr (hM a e)
    | jsError msg =>
      rw [htr] at hcore
      simp only [Except.error.injEq] at hcore
      rw [← hcore]
      refine ⟨by simp [toMarvinError, networkFailure, unknownFailure], ?_, ?_⟩
      · intro d hd; simp [toMarvinError, networkFailure, unknownFailure] at hd
      · intro hst; simp [toMarvinError, networkFailure, unknownFailure] at hst
    | other =>
      rw [htr] at hcore
      simp only [Except.error.injEq] at hcore
      rw [← hcore]
      refine ⟨by simp [toMarvinError, networkFailure, unknownFailure], ?_, ?_⟩
      · intro d hd; simp [toMarvinError, networkFailure, unknownFailure] at hd
      · intro hst; simp [toMarvinError, networkFailure, unknownFailure] at hst
  | resp r =>
    rw [htr] at hcore
    cases hok : r.ok with
    | true =>
      simp only [hok, Bool.not_true, Bool.false_eq_true, if_false] at hcore
      cases f with
      | marvin e => exact absurd hcore (hP r e)
      | jsError msg =>
        refine ⟨by simp [toMarvinError, networkFailure, unknownFailure], ?_, ?_⟩
        · intro d hd; simp [toMarvinError, networkFailure, unknownFailure] at hd
        · intro hst; simp [toMarvinError, networkFailure, unknownFailure] at hst
      | other =>
        refine ⟨by simp [toMarvinError, networkFailure, unknownFailure], ?_, ?_⟩
        · intro d hd; simp [toMarvinError, networkFailure, unknownFailure] at hd
        · intro hst; simp [toMarvinError, networkFailure, unknownFailure] at hst
    | false =>
      simp only [hok, Bool.not_false, if_true] at hcore
      simp only [Except.error.injEq] at hcore
      rw [← hcore]
      refine ⟨?_, ?_, ?_⟩
      · simpa [toMarvinError, httpFailure] using hT a r htr
      · intro d hd
        simp only [toMarvinError, httpFailure] at hd
        exact parseRetryAfter_nonneg host now r.retryAfter d hd
      · intro hst
        simp only [toMarvinError, httpFailure] at hst
        exact ⟨a, r, htr, hok, hst, by simp [toMarvinError, httpFailure]⟩

lemma requestLoop_error_sound
    (hT : ∀ a r, transport a (buildRequest client endpoint options ah) = .resp r →
      0 ≤ r.status)
    (hM : ∀ a e, transport a (buildRequest client endpoint options ah) ≠ .fail (.marvin e))
    (hP : ∀ r e, parser r ≠ .error (.marvin e)) :
    ∀ (fuel attempt : Nat) (lastError : Option MarvinError),
      (∀ e, lastError = some e → SoundFailure client endpoint options ah transport e) →
      ∀ e, (requestLoop host client endpoint options ah transport parser now fuel attempt
        lastError).outcome = .error e →
        SoundFailure client endpoint options ah transport e := by
  intro fuel
  induction fuel with
  | zero =>
    intro attempt lastError hlast e hout
    simp only [requestLoop] at hout
    cases lastError with
    | some e' =>
      simp only [Except.error.injEq] at hout
      exact hout ▸ hlast e' rfl
    | none =>
      simp only [Except.error.injEq] at hout
      rw [← hout]
      refine ⟨by simp, ?_, ?_⟩
      · intro d hd; simp at hd
      · intro hst; simp at hst
  | succ fuel ih =>
    intro attempt lastError hlast e hout
    cases hcore : makeRequestCore host client endpoint options ah (transport attempt)
        parser now with
    | ok v =>
      rw [requestLoop_succ_ok host client endpoint options ah transport parser now
        fuel attempt lastError v hcore] at hout
      exact absurd hout (by simp)
    | error f =>
      cases hstop : (isNonRetryableClientError
            (toMarvinError f endpoint (effectiveMethod options) now)
          || attempt == client.retries
          || !shouldRetry (toMarvinError f endpoint (effectiveMethod options) now)) with
      | true =>
        rw [requestLoop_succ_stop host client endpoint options ah transport parser now
          fuel attempt lastError f hcore hstop] at hout
        simp only [Except.error.injEq] at hout
        exact hout ▸ candidate_sound host client endpoint options ah transport parser now
          hT hM hP attempt f hcore
      | false =>
        rw [requestLoop_succ_continue host client endpoint options ah transport parser now
          fuel attempt lastError f hcore hstop] at hout
        exact ih (attempt + 1)
          (some (toMarvinError f endpoint (effectiveMethod options) now))
          (fun e' he' => by
            rw [Option.some_inj] at he'
            exact he' ▸ candidate_sound host client endpoint options ah transport parser now
              hT hM hP attempt f hcore)
          e hout

/-- Claim C8 (confirmed): the defensive post-loop fallback of
`requestWithRetries` (the synthetic "Retry Exhausted" failure) is
unreachable — for every configuration with the non-negative integer retry
budget the constructor validates, and every transport and parser, the
attempt loop terminates by an explicit success or throw before the loop
can exit normally. -/
theorem fallback_unreachable :
    (requestWithRetries host client endpoint options ah transport parser now).usedFallback
      = false := by
  have h := requestLoop_no_fallback host client endpoint options ah transport parser now
    client.retries 0 none (by omega)
  simpa [requestWithRetries] using h

/-- Claim C3 (confirmed): when the first attempt yields a response with a
4xx status other than 429, the call fails immediately with the failure
built from that response, after exactly one transport invocation,
regardless of the configured retry budget. -/
theorem clientError_failsFirst (r : Response)
    (ht : transport 0 (buildRequest client endpoint options ah) = .resp r)
    (hok : r.ok = false) (h4 : 400 ≤ r.status) (h5 : r.status < 500)
    (h429 : r.status ≠ 429) :
    (requestWithRetries host client endpoint options ah transport parser now).calls = 1 ∧
    (requestWithRetries host client endpoint options ah transport parser now).outcome
      = .error (httpFailure host endpoint (effectiveMethod options) now r) := by
  have hcore : makeRequestCore host client endpoint options ah (transport 0) parser now
      = .error (.marvin (httpFailure host endpoint (effectiveMethod options) now r)) := by
    simp only [makeRequestCore]
    rw [ht]
    simp [hok]
  have h1 : isNonRetryableClientError
      (httpFailure host endpoint (effectiveMethod options) now r) = true := by
    simp [isNonRetryableClientError, MarvinError.isClientError, httpFailure, bne_iff_ne]
    omega
  have hstop : (isNonRetryableClientError (toMarvinError
        (.marvin (httpFailure host endpoint (effectiveMethod options) now r)) endpoint
        (effectiveMethod options) now)
      || ((0 : Nat) == client.retries)
      || !shouldRetry (toMarvinError
        (.marvin (httpFailure host endpoint (effectiveMethod options) now r)) endpoint
        (effectiveMethod options) now)) = true := by
    simp [toMarvinError, h1]
  have hres := requestLoop_succ_stop host client endpoint options ah transport parser now
    client.retries 0 none
    (.marvin (httpFailure host endpoint (effectiveMethod options) now r)) hcore hstop
  constructor
  · simp only [requestWithRetries]; rw [hres]
  · simp only [requestWithRetries]; rw [hres]; simp [toMarvinError]

/-- Witness for C3: a scripted 404 transport fails after exactly one
invocation even though the client's budget allows three retries. -/
theorem clientError_failsFirst_wit :
    (requestWithRetries sampleHost sampleClient "/tasks" getOptions []
      (constTransport resp404) okParse 0).calls = 1 ∧
    (requestWithRetries sampleHost sampleClient "/tasks" getOptions []
      (constTransport resp404) okParse 0).outcome
      = .error (httpFailure sampleHost "/tasks" (effectiveMethod getOptions) 0 resp404) :=
  clientError_failsFirst sampleHost sampleClient "/tasks" getOptions []
    (constTransport resp404) okParse 0 resp404 rfl rfl (by decide) (by decide) (by decide)

/-- Claim C4 (confirmed): when every attempt produces a retryable candidate
failure (5xx, 429, or status 0), the executor makes exactly
`retries + 1` transport invocations and surfaces exactly the candidate of
the final attempt. -/
theorem exhaustion_lastFailure
    (hc : ∀ j, j ≤ client.retries →
      ∃ e, candidateAt host client endpoint options ah transport parser now j = some e ∧
        (500 ≤ e.status ∧ e.status < 600 ∨ e.status = 429 ∨ e.status = 0)) :
    (requestWithRetries host client endpoint options ah transport parser now).calls
        = client.retries + 1 ∧
    ∃ e, candidateAt host client endpoint options ah transport parser now client.retries
        = some e ∧
      (requestWithRetries host client endpoint options ah transport parser now).outcome
        = .error e := by
  have hall : ∀ j, 0 ≤ j → j ≤ client.retries →
      ∃ e, candidateAt host client endpoint options ah transport parser now j = some e ∧
        shouldRetry e = true ∧ isNonRetryableClientError e = false := by
    intro j _ hj
    obtain ⟨e, hce, hcls⟩ := hc j hj
    refine ⟨e, hce, ?_, ?_⟩
    · rcases hcls with h | h | h <;>
        · simp [shouldRetry, MarvinError.isRetryable, MarvinError.isServerError]
          omega
    · rcases hcls with h | h | h <;>
        · simp [isNonRetryableClientError, MarvinError.isClientError, bne_iff_ne]
          omega
  obtain ⟨e, hce, hcalls, hout⟩ := requestLoop_exhaust host client endpoint options ah
    transport parser now client.retries 0 none (by omega) hall
  refine ⟨?_, e, hce, ?_⟩
  · simp only [requestWithRetries]; exact hcalls
  · simp only [requestWithRetries]; exact hout

/-- Witness for C4: a transport that answers 500 on all four attempts of a
`retries = 3` client yields exactly 4 invocations and surfaces the last
candidate. -/
theorem exhaustion_lastFailure_wit :
    (requestWithRetries sampleHost sampleClient "/tasks" getOptions []
      (constTransport resp500) okParse 0).calls = 4 ∧
    ∃ e, candidateAt sampleHost sampleClient "/tasks" getOptions []
        (constTransport resp500) okParse 0 sampleClient.retries = some e ∧
      (requestWithRetries sampleHost sampleClient "/tasks" getOptions []
        (constTransport resp500) okParse 0).outcome = .error e := by
  have h := exhaustion_lastFailure sampleHost sampleClient "/tasks" getOptions []
    (constTransport resp500) okParse 0
    (fun j hj =>
      ⟨httpFailure sampleHost "/tasks" (effectiveMethod getOptions) 0 resp500, rfl,
        Or.inl (by decide)⟩)
  exact ⟨h.1, h.2⟩

/-- Claim C5 (confirmed): every recorded inter-attempt delay equals the
candidate failure's `retryAfterMs` verbatim when that hint is present, and
`retryDelay * 2 ^ attempt` otherwise. -/
theorem delay_hint_or_backoff (i : Nat)
    (h : i < (requestWithRetries host client endpoint options ah transport parser
      now).delays.length) :
    ∃ e, candidateAt host client endpoint options ah transport parser now i = some e ∧
      (∀ hint, e.retryAfterMs = some hint →
        (requestWithRetries host client endpoint options ah transport parser now).delays[i]?
          = some hint) ∧
      (e.retryAfterMs = none →
        (requestWithRetries host client endpoint options ah transport parser now).delays[i]?
          = some (client.retryDelay * 2 ^ i)) := by
  have h' : i < (requestLoop host client endpoint options ah transport parser now
      (client.retries + 1) 0 none).delays.length := h
  obtain ⟨e, hce, hget⟩ := requestLoop_delays host client endpoint options ah transport
    parser now (client.retries + 1) 0 none i h'
  rw [Nat.zero_add] at hce hget
  refine ⟨e, hce, ?_, ?_⟩
  · intro hint hr
    simp only [waitBeforeRetry, hr] at hget
    simpa [requestWithRetries] using hget
  · intro hr
    simp only [waitBeforeRetry, hr] at hget
    simpa [requestWithRetries] using hget

/-- Witness for C5: a 429 response carrying retry hint "2" (two seconds)
makes the single recorded delay equal 2000 ms exactly, not the
exponential fallback. -/
theorem delay_hint_or_backoff_wit :
    (requestWithRetries sampleHost sampleClient "/tasks" getOptions [] hintThenOkTransport
      okParse 0).delays[0]? = some 2000 := by
  obtain ⟨e, hce, hsome, _⟩ := delay_hint_or_backoff sampleHost sampleClient "/tasks"
    getOptions [] hintThenOkTransport okParse 0 0 (by decide)
  have h0 : candidateAt sampleHost sampleClient "/tasks" getOptions [] hintThenOkTransport
      okParse 0 0
      = some (httpFailure sampleHost "/tasks" (effectiveMethod getOptions) 0 resp429hint) :=
    rfl
  rw [h0] at hce
  have he : e = httpFailure sampleHost "/tasks" (effectiveMethod getOptions) 0 resp429hint :=
    (Option.some_inj.mp hce).symm
  have hhint : (httpFailure sampleHost "/tasks" (effectiveMethod getOptions) 0
      resp429hint).retryAfterMs = some 2000 := by
    simp [httpFailure, parseRetryAfter, sampleHost, resp429hint]
    norm_num
  exact hsome 2000 (he ▸ hhint)

/-- Counterexample to claim C1 as stated: with a transport that always
resolves 2xx and a body parser that always throws, a `retries = 1` client
invokes the transport TWICE (the claim demands exactly one invocation),
and the surfaced failure is the wrapped status-0 "Network Error" record
rather than the unmodified parser fault. -/
theorem parseFault_cex :
    (requestWithRetries sampleHost oneRetryClient "/tasks" getOptions []
      (constTransport okResponse) failParse 0).calls = 2 ∧
    (requestWithRetries sampleHost oneRetryClient "/tasks" getOptions []
      (constTransport okResponse) failParse 0).outcome
      = .error (networkFailure "/tasks" "GET" 0 "unexpected end of input") :=
  ⟨rfl, rfl⟩

/-- Claim C1 (corrected): a parser fault raised after a 2xx response is not
propagated as-is without retrying — the retry wrapper catches it, wraps it
as a status-0 "Network Error" failure (which `shouldRetry` accepts), and
therefore retries it like a transport fault: the transport is invoked
`retries + 1` times and the wrapped parser fault of the last attempt is
surfaced, with only its message preserved. -/
theorem parseFault_retried (r : Response) (msg : String)
    (hok : r.ok = true)
    (ht : ∀ a, transport a (buildRequest client endpoint options ah) = .resp r)
    (hp : parser r = .error (.jsError msg)) :
    (requestWithRetries host client endpoint options ah transport parser now).calls
        = client.retries + 1 ∧
    (requestWithRetries host client endpoint options ah transport parser now).outcome
      = .error (networkFailure endpoint (effectiveMethod options) now msg) := by
  have hcand : ∀ j, candidateAt host client endpoint options ah transport parser now j
      = some (networkFailure endpoint (effectiveMethod options) now msg) := by
    intro j
    have hcore : makeRequestCore host client endpoint options ah (transport j) parser now
        = .error (.jsError msg) := by
      simp only [makeRequestCore]
      rw [ht j]
      simp [hok, hp]
    simp only [candidateAt]
    rw [hcore]
    simp [toMarvinError]
  have hall : ∀ j, 0 ≤ j → j ≤ client.retries →
      ∃ e, candidateAt host client endpoint options ah transport parser now j = some e ∧
        shouldRetry e = true ∧ isNonRetryableClientError e = false := by
    intro j _ _
    refine ⟨_, hcand j, ?_, ?_⟩
    · simp [shouldRetry, MarvinError.isRetryable, MarvinError.isServerError, networkFailure]
    · simp [isNonRetryableClientError, MarvinError.isClientError, networkFailure]
  obtain ⟨e, hce, hcalls, hout⟩ := requestLoop_exhaust host client endpoint options ah
    transport parser now client.retries 0 none (by omega) hall
  have he : e = networkFailure endpoint (effectiveMethod options) now msg := by
    rw [hcand client.retries] at hce
    exact (Option.some_inj.mp hce).symm
  refine ⟨by simp only [requestWithRetries]; exact hcalls, ?_⟩
  simp only [requestWithRetries]
  rw [hout, he]

/-- Witness for C1 (corrected): the `retries = 3` client with an
always-2xx transport and an always-throwing parser makes 4 transport
invocations and surfaces the wrapped parser fault. -/
theorem parseFault_retried_wit :
    (requestWithRetries sampleHost sampleClient "/tasks" getOptions []
      (constTransport okResponse) failParse 0).calls = 4 ∧
    (requestWithRetries sampleHost sampleClient "/tasks" getOptions []
      (constTransport okResponse) failParse 0).outcome
      = .error (networkFailure "/tasks" "GET" 0 "unexpected end of input") := by
  have h := parseFault_retried sampleHost sampleClient "/tasks" getOptions []
    (constTransport okResponse) failParse 0 okResponse "unexpected end of input" rfl
    (fun a => rfl) rfl
  exact ⟨h.1, h.2⟩

/-- Counterexample to claim C2 as stated: a 304 response is neither a
client error (`400 ≤ status < 500` fails) nor in any retryable class, so
by the claim's final clause ("in every other case ... it proceeds to
attempt a+1") the executor should retry; the code instead fails
immediately after a single invocation. -/
theorem retryDecision_cex :
    (requestWithRetries sampleHost sampleClient "/tasks" getOptions []
      (constTransport resp304) okParse 0).calls = 1 ∧
    (requestWithRetries sampleHost sampleClient "/tasks" getOptions []
      (constTransport resp304) okParse 0).outcome
      = .error (httpFailure sampleHost "/tasks" "GET" 0 resp304) :=
  ⟨rfl, rfl⟩

/-- Claim C2 (corrected): the per-attempt decision on a candidate failure.
A non-429 client error fails immediately; an exhausted budget
(`attempt = retries`) fails immediately; a candidate that `shouldRetry`
accepts (5xx, status 0, or 429) proceeds to attempt `attempt + 1`; but —
against the claim's final clause — a candidate outside all of these
classes (e.g. a 3xx status) also fails immediately rather than
proceeding. -/
theorem retryDecision (fuel attempt : Nat) (lastError : Option MarvinError) (f : Fault)
    (e : MarvinError)
    (hcore : makeRequestCore host client endpoint options ah (transport attempt) parser now
      = .error f)
    (he : toMarvinError f endpoint (effectiveMethod options) now = e) :
    (isNonRetryableClientError e = true →
      requestLoop host client endpoint options ah transport parser now (fuel + 1) attempt
        lastError
        = { outcome := .error e, calls := 1, delays := [], usedFallback := false }) ∧
    (attempt = client.retries →
      requestLoop host client endpoint options ah transport parser now (fuel + 1) attempt
        lastError
        = { outcome := .error e, calls := 1, delays := [], usedFallback := false }) ∧
    (isNonRetryableClientError e = false → attempt ≠ client.retries → shouldRetry e = true →
      requestLoop host client endpoint options ah transport parser now (fuel + 1) attempt
        lastError
        = { outcome := (requestLoop host client endpoint options ah transport parser now
              fuel (attempt + 1) (some e)).outcome,
            calls := (requestLoop host client endpoint options ah transport parser now
              fuel (attempt + 1) (some e)).calls + 1,
            delays := waitBeforeRetry client attempt e
              :: (requestLoop host client endpoint options ah transport parser now
                fuel (attempt + 1) (some e)).delays,
            usedFallback := (requestLoop host client endpoint options ah transport parser now
              fuel (attempt + 1) (some e)).usedFallback }) ∧
    (isNonRetryableClientError e = false → attempt ≠ client.retries → shouldRetry e = false →
      requestLoop host client endpoint options ah transport parser now (fuel + 1) attempt
        lastError
        = { outcome := .error e, calls := 1, delays := [], usedFallback := false }) := by
  subst he
  refine ⟨?_, ?_, ?_, ?_⟩
  · intro h1
    exact requestLoop_succ_stop host client endpoint options ah transport parser now
      fuel attempt lastError f hcore (by simp [h1])
  · intro h2
    exact requestLoop_succ_stop host client endpoint options ah transport parser now
      fuel attempt lastError f hcore (by simp [h2])
  · intro h1 h2 h3
    exact requestLoop_succ_continue host client endpoint options ah transport parser now
      fuel attempt lastError f hcore (by simp [h1, h3, beq_eq_false_iff_ne.mpr h2])
  · intro h1 h2 h3
    exact requestLoop_succ_stop host client endpoint options ah transport parser now
      fuel attempt lastError f hcore (by simp [h3])

/-- Witness for C2 (corrected): the fourth bucket concretely — a 304
candidate with budget remaining stops the loop at once with that
failure. -/
theorem retryDecision_wit :
    requestLoop sampleHost sampleClient "/tasks" getOptions [] (constTransport resp304)
      okParse 0 (sampleClient.retries + 1) 0 none
      = { outcome := .error (httpFailure sampleHost "/tasks" "GET" 0 resp304),
          calls := 1, delays := [], usedFallback := false } := by
  have h := retryDecision sampleHost sampleClient "/tasks" getOptions []
    (constTransport resp304) okParse 0 sampleClient.retries 0 none
    (.marvin (httpFailure sampleHost "/tasks" (effectiveMethod getOptions) 0 resp304))
    (httpFailure sampleHost "/tasks" (effectiveMethod getOptions) 0 resp304) rfl rfl
  exact h.2.2.2 (by decide) (by decide) (by decide)

/-- Counterexample to claim C7 as stated: a non-ok response whose reason
phrase is empty produces a surfaced Failure whose `statusText` is the
empty string — not a populated string as the claim demands for "every
transport result, including responses whose reason phrase is empty". -/
theorem failureInvariants_cex :
    (requestWithRetries sampleHost zeroRetryClient "/tasks" getOptions []
      (constTransport emptyReason500) okParse 0).outcome
      = .error { message := "HTTP 500: ", status := 500, statusText := "",
                 endpoint := "/tasks", method := "GET", timestamp := 0,
                 retryAfterMs := none } :=
  rfl

/-- Claim C7 (corrected): provided the transport only resolves responses
with non-negative statuses and neither the transport nor the parser fails
with a pre-built `MarvinError`, every surfaced failure has a non-negative
status and a non-negative retry hint (when present); `statusText` is
populated for synthesized failures, but for response-derived failures it
copies the reason phrase verbatim and is empty exactly when the response's
reason phrase was empty. -/
theorem failureInvariants
    (hT : ∀ a r, transport a (buildRequest client endpoint options ah) = .resp r →
      0 ≤ r.status)
    (hM : ∀ a e, transport a (buildRequest client endpoint options ah) ≠ .fail (.marvin e))
    (hP : ∀ r e, parser r ≠ .error (.marvin e)) :
    ∀ e, (requestWithRetries host client endpoint options ah transport parser now).outcome
        = .error e →
      SoundFailure client endpoint options ah transport e := by
  intro e hout
  simp only [requestWithRetries] at hout
  exact requestLoop_error_sound host client endpoint options ah transport parser now
    hT hM hP (client.retries + 1) 0 none (fun e' he' => nomatch he') e hout

/-- Witness for C7 (corrected): the failure surfaced by a persistent 500
transport satisfies the invariant bundle. -/
theorem failureInvariants_wit :
    SoundFailure zeroRetryClient "/tasks" getOptions [] (constTransport resp500)
      (httpFailure sampleHost "/tasks" "GET" 0 resp500) := by
  refine failureInvariants sampleHost zeroRetryClient "/tasks" getOptions []
    (constTransport resp500) okParse 0 ?_ ?_ ?_
    (httpFailure sampleHost "/tasks" "GET" 0 resp500) rfl
  · intro a r h
    simp only [constTransport] at h
    cases h
    decide
  · intro a e h
    simp [constTransport] at h
  · intro r e h
    simp [okParse] at h

end Executor

/-- Claim C6 (confirmed): retry-hint parsing. A missing header yields no
hint; a non-empty value the host's number parsing accepts as `secs`
seconds yields exactly `max 0 ⌊secs * 1000⌋` milliseconds; a non-empty
value parsing only as a date yields the clamped distance from now;
anything else yields no hint. The empty string is falsy in JavaScript
exactly like a missing header (and is not a "number of seconds"), so it
too is treated as absent. -/
theorem retryAfter_parsing (host : JsHost) (now : Int) :
    parseRetryAfter host now none = none ∧
    parseRetryAfter host now (some "") = none ∧
    (∀ s secs, s ≠ "" → host.numParse s = some secs →
      parseRetryAfter host now (some s) = some (max 0 ⌊secs * 1000⌋)) ∧
    (∀ s dateMs, s ≠ "" → host.numParse s = none → host.dateParseMs s = some dateMs →
      parseRetryAfter host now (some s) = some (max 0 (dateMs - now))) ∧
    (∀ s, s ≠ "" → host.numParse s = none → host.dateParseMs s = none →
      parseRetryAfter host now (some s) = none) := by
  refine ⟨rfl, rfl, ?_, ?_, ?_⟩
  · intro s secs hs hn
    simp [parseRetryAfter, hs, hn]
  · intro s dateMs hs hn hd
    simp [parseRetryAfter, hs, hn, hd]
  · intro s hs hn hd
    simp [parseRetryAfter, hs, hn, hd]

/-- Witness for C6: the header value "2" parses as 2 seconds and yields a
2000 ms hint. -/
theorem retryAfter_parsing_wit :
    parseRetryAfter sampleHost 0 (some "2") = some 2000 := by
  have h := (retryAfter_parsing sampleHost 0).2.2.1 "2" 2 (by decide) rfl
  rw [h]
  norm_num

/-- Counterexample to claim C9 as stated: the bodies `0`, `false` and the
empty string are present arguments, yet `post` attaches no body for them —
the `if (body)` truthiness guard drops every falsy body. -/
theorem postBody_cex :
    (post (.num 0)).body = none ∧ (post (.bool false)).body = none ∧
    (post (.str "")).body = none :=
  ⟨rfl, rfl, rfl⟩

/-- Claim C9 (corrected): a POST call attaches the JSON-serialized body to
the outgoing request exactly when the body argument is truthy; falsy
bodies — an omitted argument, `null`, `false`, `0`, and the empty string —
are silently dropped. The built request always carries method POST. -/
theorem postBody_truthiness (client : MarvinClient) (endpoint : String)
    (ah : List (String × String)) (b : JSValue) :
    (buildRequest client endpoint (post b) ah).method = "POST" ∧
    (truthy b = true →
      (buildRequest client endpoint (post b) ah).body = some (jsonStringify b)) ∧
    (truthy b = false → (buildRequest client endpoint (post b) ah).body = none) := by
  refine ⟨?_, ?_, ?_⟩
  · cases h : truthy b <;> simp [buildRequest, effectiveMethod, post, h]
  · intro h
    simp [buildRequest, post, h]
  · intro h
    simp [buildRequest, post, h]

/-- Witness for C9 (corrected): a truthy object body is serialized and
attached to the built request. -/
theorem postBody_truthiness_wit :
    (buildRequest sampleClient "/addTask" (post (.obj [("title", .str "write docs")])) []).body
      = some "\x7b\"title\":\"write docs\"\x7d" := by
  have h := (postBody_truthiness sampleClient "/addTask" []
    (.obj [("title", .str "write docs")])).2.1 rfl
  exact h.trans rfl

/-- Claim C10 (confirmed): a configuration whose token is absent, empty, or
whitespace-only makes construction fail with exactly the token error —
whatever the other fields hold, so the token guard runs before every other
validation — and no successfully constructed client carries a credential
that trims to the empty string. -/
theorem emptyToken_rejected (config : MarvinClientConfig) :
    ((config.apiToken = none ∨ ∃ t, config.apiToken = some t ∧ jsTrim t = "") →
      MarvinClient.construct config = .error "API token is required and cannot be empty") ∧
    ∀ c, MarvinClient.construct config = .ok c → jsTrim c.apiToken ≠ "" := by
  constructor
  · intro h
    rcases h with h | ⟨t, ht, htr⟩
    · simp [MarvinClient.construct, h]
    · simp [MarvinClient.construct, ht, htr]
  · intro c hc
    cases hcfg : config.apiToken with
    | none =>
      simp only [MarvinClient.construct, hcfg] at hc
      exact Except.noConfusion hc
    | some t =>
      simp only [MarvinClient.construct, hcfg] at hc
      by_cases htr : jsTrim t = ""
      · rw [if_pos (Or.inr htr)] at hc
        simp at hc
      · have hne : ¬(t = "" ∨ jsTrim t = "") := by
          rintro (rfl | h)
          · exact htr (by decide)
          · exact htr h
        rw [if_neg hne] at hc
        split_ifs at hc with h1 h2 h3
        simp only [Except.ok.injEq] at hc
        subst hc
        intro habs
        exact htr habs

/-- Witness for C10: a whitespace-only token is rejected with the token
error even though the configured timeout is also invalid, showing the
token guard runs first. -/
theorem emptyToken_rejected_wit :
    MarvinClient.construct
      { apiToken := some "   ", baseUrl := none, timeout := some (-5), retries := none,
        retryDelay := none }
      = .error "API token is required and cannot be empty" :=
  (emptyToken_rejected
    { apiToken := some "   ", baseUrl := none, timeout := some (-5), retries := none,
      retryDelay := none }).1 (Or.inr ⟨"   ", rfl, by decide⟩)

end Marvin
